import Mathlib

/-!
Verification of the `githubactionsoidc` credential helper
(`githubactionsoidc/githubactionsoidc.go`).

The helper implements the four-operation credential-provider contract
(`Add`, `Delete`, `Get`, `List`).  `Get` exchanges the ambient GitHub
Actions OIDC request token for an ID token over HTTP; everything else is
a logging no-op.  The Go code is shallowly embedded below:

* environment access is a record of the three consumed variables
  (`Env`); Go's `os.Getenv` returns `""` for an absent variable, so
  "absent" and "empty" coincide;
* the HTTP layer (`http.NewRequest` / `http.DefaultClient.Do`) is an
  oracle carried in `World`; a response body is modelled by whether it
  parses as a JSON value and, if so, which one (`Body`);
* `encoding/json` decoding of the body into `struct { Value string }`
  is embedded as `decodeBody` / `decodeValueField`, following Go's
  semantics: top-level `null` and objects decode, object keys are
  matched against the `value` tag ASCII-case-insensitively, a matching
  field of string type sets the value, `null` is a no-op, any other
  type is an unmarshal type error;
* `net/url.QueryEscape` is embedded as `queryEscape` over the UTF-8
  bytes of the string;
* the log file is a caller-supplied sink (`Sink`): a state transformer
  returning a possible write error, both of which the Go code discards
  (`WriteString`'s results are ignored at every call site).  The
  RFC3339 timestamp that Go prefixes to every line is wall-clock data
  with no influence on any return value and is not modelled; log
  messages are modelled by their payload after the timestamp.

`Get` is instrumented with one piece of trace information beyond its Go
return values: `requestSent`, the request handed to the HTTP client
(`none` when no call was made).
-/

/-- A JSON value.  Numbers are kept as their source literal: no claim
depends on numeric values, only on the type of a field. -/
inductive Json where
  | null
  | bool (b : Bool)
  | num (lit : String)
  | str (s : String)
  | arr (xs : List Json)
  | obj (fields : List (String × Json))

/-- An HTTP response body, abstracted to whether it parses as a JSON
value: `malformed raw` is any byte stream whose first value does not
parse (including the empty body), `wellFormed j` is a stream whose
first JSON value is `j`. -/
inductive Body where
  | malformed (raw : String)
  | wellFormed (j : Json)

/-- ASCII lower-casing of one character. -/
def asciiLower (c : Char) : Char :=
  if 65 ≤ c.toNat ∧ c.toNat ≤ 90 then Char.ofNat (c.toNat + 32) else c

/-- Whether an object key selects the Go struct field tagged
`json:"value"`.  Go matches the tag exactly or case-insensitively
(`strings.EqualFold` against the tag); for the all-ASCII tag `"value"`,
whose letters have two-element case-fold orbits, that is ASCII
case-insensitive comparison. -/
def fieldMatches (k : String) : Bool :=
  k.data.map asciiLower == "value".data

/-- Decoding the fields of a JSON object into `struct { Value string }`,
processing keys in order as Go does: a key matching the `value` tag with
a string value sets the field, with `null` is a no-op, with any other
type is an unmarshal type error; other keys are ignored. -/
def runFields : List (String × Json) → String → Except String String
  | [], acc => .ok acc
  | (k, v) :: rest, acc =>
    if fieldMatches k then
      match v with
      | .str s => runFields rest s
      | .null => runFields rest acc
      | _ => .error "json: cannot unmarshal value into Go struct field .value of type string"
    else
      runFields rest acc

/-- Embedding of `json.Unmarshal` of a JSON value into `struct { Value string }`:
`null` is a no-op leaving the zero value, an object is decoded field by
field, any other top-level type is an unmarshal type error. -/
def decodeValueField : Json → Except String String
  | .null => .ok ""
  | .obj fields => runFields fields ""
  | _ => .error "json: cannot unmarshal value into Go value of type struct"

/-- Embedding of `json.NewDecoder(resp.Body).Decode(&respBody)`: a body that does not
parse as JSON is a syntax error, otherwise the first JSON value is
unmarshalled into the single-field struct. -/
def decodeBody : Body → Except String String
  | .malformed _ => .error "invalid character in JSON input"
  | .wellFormed j => decodeValueField j

/-- UTF-8 encoding of one character, as the list of its byte values. -/
def charUtf8 (c : Char) : List Nat :=
  let n := c.toNat
  if n < 0x80 then [n]
  else if n < 0x800 then [0xC0 + n / 64, 0x80 + n % 64]
  else if n < 0x10000 then
    [0xE0 + n / 4096, 0x80 + (n / 64) % 64, 0x80 + n % 64]
  else
    [0xF0 + n / 262144, 0x80 + (n / 4096) % 64, 0x80 + (n / 64) % 64,
     0x80 + n % 64]

/-- The UTF-8 bytes of a string, the representation `url.QueryEscape`
operates on. -/
def utf8Bytes (s : String) : List Nat :=
  s.data.flatMap charUtf8

/-- Embedding of `strings.Contains(s, "?")` for the single-character substring
`"?"`: containment of the character among the string's characters. -/
def containsChar (s : String) (c : Char) : Bool :=
  s.data.contains c

/-- Go's `shouldEscape` for a query component is false exactly on ASCII
alphanumerics and `-`, `_`, `.`, `~`. -/
def isUnreserved (b : Nat) : Bool :=
  (97 ≤ b && b ≤ 122) || (65 ≤ b && b ≤ 90) || (48 ≤ b && b ≤ 57) ||
  b == 45 || b == 95 || b == 46 || b == 126

/-- Uppercase hexadecimal digit for `n < 16`. -/
def hexUpper (n : Nat) : Char :=
  (['0', '1', '2', '3', '4', '5', '6', '7', '8', '9',
    'A', 'B', 'C', 'D', 'E', 'F']).getD n '0'

/-- Escaping of one byte in a query component: unreserved bytes are
kept, a space becomes `+`, everything else becomes `%XX`. -/
def escapeByte (b : Nat) : List Char :=
  if isUnreserved b then [Char.ofNat b]
  else if b == 32 then ['+']
  else ['%', hexUpper (b / 16), hexUpper (b % 16)]

/-- Embedding of `net/url.QueryEscape`. -/
def queryEscape (s : String) : String :=
  String.mk ((utf8Bytes s).flatMap escapeByte)

/-- Modelled from the spec: the error taxonomy of the repository's
`credentials` package (not under `src/`), whose only error surfaced by
this helper is `CredentialsNotFound`; `other` stands for every other Go
error value the package can represent. -/
inductive GoError where
  | credentialsNotFound
  | other (msg : String)
deriving DecidableEq, Repr

/-- Modelled from the spec: `credentials.NewErrCredentialsNotFound`. -/
def NewErrCredentialsNotFound : GoError :=
  .credentialsNotFound

/-- Modelled from the spec: `credentials.IsErrCredentialsNotFound`. -/
def IsErrCredentialsNotFound : GoError → Bool
  | .credentialsNotFound => true
  | .other _ => false

/-- Modelled from the spec: `credentials.Credentials`, the payload of a
`store` request. -/
structure Credentials where
  ServerURL : String
  Username : String
  Secret : String
deriving DecidableEq, Repr

/-- An HTTP request as built by `Get`: method, target URL and headers. -/
structure HttpRequest where
  method : String
  url : String
  headers : List (String × String)
deriving DecidableEq, Repr

/-- An HTTP response: status code and body. -/
structure HttpResponse where
  statusCode : Nat
  body : Body

/-- Outcome of `http.DefaultClient.Do`: a transport-level error or a
response. -/
inductive HttpResult where
  | netErr (msg : String)
  | resp (r : HttpResponse)

/-- The three environment variables `Get` consumes.  `os.Getenv`
returns `""` for an unset variable, so absence is the empty string. -/
structure Env where
  requestURL : String
  requestToken : String
  audience : String
deriving DecidableEq, Repr

/-- The ambient world of one `Get` call: the environment and the HTTP
layer.  `newRequest u = some e` models `http.NewRequest` failing with
error `e` on target `u` (a malformed URL); `send` models
`http.DefaultClient.Do` as a deterministic endpoint. -/
structure World where
  env : Env
  newRequest : String → Option String
  send : HttpRequest → HttpResult

/-- A log sink: Go's `LogFile.WriteString` advances the sink state and
may report a write error; the helper discards both results. -/
def Sink (σ : Type) : Type :=
  σ → String → σ × Option GoError

/-- The values `Get` returns — username, secret, error — together with
the request handed to the HTTP client (`none` when no call was made). -/
structure GetOutput where
  username : String
  secret : String
  err : Option GoError
  requestSent : Option HttpRequest
deriving DecidableEq, Repr

namespace GitHubActionsOidc

/-- Embedding of `GitHubActionsOidc.Add`: logs the call and succeeds; no credential
state exists to change (the Go struct's only field is the log file). -/
def Add {σ : Type} (sink : Sink σ) (st : σ) (creds : Credentials) :
    Option GoError × σ :=
  let st := (sink st ("Adding credentials for server: " ++ creds.ServerURL)).1
  (none, st)

/-- Embedding of `GitHubActionsOidc.Delete`: logs the call and succeeds. -/
def Delete {σ : Type} (sink : Sink σ) (st : σ) (serverURL : String) :
    Option GoError × σ :=
  let st := (sink st ("Deleting credentials for server: " ++ serverURL)).1
  (none, st)

/-- Embedding of `GitHubActionsOidc.Get`, translated statement by statement from the Go
source; the sink state is threaded through every `WriteString` call with
the write error discarded, as the Go code does. -/
def Get {σ : Type} (sink : Sink σ) (st : σ) (w : World)
    (serverURL : String) : GetOutput × σ :=
  let st := (sink st ("Getting OIDC token: " ++ serverURL)).1
  let oidcRequestURL := w.env.requestURL
  let oidcRequestToken := w.env.requestToken
  if oidcRequestURL = "" ∨ oidcRequestToken = "" then
    let st := (sink st "Missing OIDC request URL or token").1
    (⟨"", "", some NewErrCredentialsNotFound, none⟩, st)
  else
    let oidcAudience := w.env.audience
    let urlSt :=
      if oidcAudience ≠ "" then
        let separator := if containsChar oidcRequestURL '?' then "&" else "?"
        let augmented :=
          oidcRequestURL ++ separator ++ "audience=" ++ queryEscape oidcAudience
        (augmented,
         (sink st ("Added OIDC audience to request URL: " ++ augmented)).1)
      else
        (oidcRequestURL, st)
    let oidcRequestURL := urlSt.1
    let st := urlSt.2
    match w.newRequest oidcRequestURL with
    | some e =>
      let st := (sink st ("Failed to create HTTP request: " ++ e)).1
      (⟨"", "", some NewErrCredentialsNotFound, none⟩, st)
    | none =>
      let req : HttpRequest :=
        { method := "GET"
          url := oidcRequestURL
          headers := [("Authorization", "Bearer " ++ oidcRequestToken),
                      ("User-Agent", "Docker-Credential-Helper-GitHubActionsOIDC")] }
      match w.send req with
      | .netErr e =>
        let st := (sink st ("Failed to send HTTP request: " ++ e)).1
        (⟨"", "", some NewErrCredentialsNotFound, some req⟩, st)
      | .resp r =>
        if r.statusCode ≠ 200 then
          let st :=
            (sink st ("Received non-OK HTTP status: " ++ toString r.statusCode)).1
          (⟨"", "", some NewErrCredentialsNotFound, some req⟩, st)
        else
          match decodeBody r.body with
          | .error e =>
            let st := (sink st ("Failed to decode HTTP response: " ++ e)).1
            (⟨"", "", some NewErrCredentialsNotFound, some req⟩, st)
          | .ok v =>
            let st := (sink st ("Successfully retrieved OIDC token: " ++ v)).1
            (⟨"github_actions", v, none, some req⟩, st)

/-- Embedding of `GitHubActionsOidc.List` (named `ListOp` here because `List` is
Lean's list type): logs the call and returns Go's `nil, nil` — a
credential map with no entries, modelled as the empty association list,
and a nil error. -/
def ListOp {σ : Type} (sink : Sink σ) (st : σ) :
    (List (String × String) × Option GoError) × σ :=
  let st := (sink st "Listing credentials").1
  (([], none), st)

end GitHubActionsOidc

/-- The primary return value of `Get` — what the Go function returns to
its caller — as a pure function of the world and the argument.  `Get`
computes exactly this in its first component (`Get_fst` below); it is
the reference point for the sink-independence and determinism
properties. -/
def GetResult (w : World) (serverURL : String) : GetOutput :=
  let oidcRequestURL := w.env.requestURL
  let oidcRequestToken := w.env.requestToken
  if oidcRequestURL = "" ∨ oidcRequestToken = "" then
    ⟨"", "", some NewErrCredentialsNotFound, none⟩
  else
    let oidcAudience := w.env.audience
    let oidcRequestURL :=
      if oidcAudience ≠ "" then
        let separator := if containsChar oidcRequestURL '?' then "&" else "?"
        oidcRequestURL ++ separator ++ "audience=" ++ queryEscape oidcAudience
      else
        oidcRequestURL
    match w.newRequest oidcRequestURL with
    | some _ => ⟨"", "", some NewErrCredentialsNotFound, none⟩
    | none =>
      let req : HttpRequest :=
        { method := "GET"
          url := oidcRequestURL
          headers := [("Authorization", "Bearer " ++ oidcRequestToken),
                      ("User-Agent", "Docker-Credential-Helper-GitHubActionsOIDC")] }
      match w.send req with
      | .netErr _ => ⟨"", "", some NewErrCredentialsNotFound, some req⟩
      | .resp r =>
        if r.statusCode ≠ 200 then
          ⟨"", "", some NewErrCredentialsNotFound, some req⟩
        else
          match decodeBody r.body with
          | .error _ => ⟨"", "", some NewErrCredentialsNotFound, some req⟩
          | .ok v => ⟨"github_actions", v, none, some req⟩

/-- Case shape of `GetResult`: either the success branch was reached
(nil error, fixed identity) or the call failed with
`CredentialsNotFound` and empty username and secret. -/
theorem GetResult_cases (w : World) (serverURL : String) :
    ((GetResult w serverURL).err = none ∧
     (GetResult w serverURL).username = "github_actions") ∨
    ((GetResult w serverURL).err = some GoError.credentialsNotFound ∧
     (GetResult w serverURL).username = "" ∧
     (GetResult w serverURL).secret = "") := by
  unfold GetResult
  simp only []
  repeat' split
  all_goals first
    | exact Or.inr ⟨rfl, rfl, rfl⟩
    | exact Or.inl ⟨rfl, rfl⟩

/-- The caller-visible result of `Get` does not depend on the log sink:
every `WriteString` result is discarded, so the first component equals
the pure `GetResult`. -/
theorem Get_fst {σ : Type} (sink : Sink σ) (st : σ) (w : World)
    (serverURL : String) :
    (GitHubActionsOidc.Get sink st w serverURL).1 = GetResult w serverURL := by
  unfold GitHubActionsOidc.Get GetResult
  by_cases h1 : w.env.requestURL = "" ∨ w.env.requestToken = ""
  · simp only [if_pos h1]
  · simp only [if_neg h1]
    by_cases h2 : w.env.audience ≠ ""
    · simp only [if_pos h2]
      cases w.newRequest _ with
      | some e => rfl
      | none =>
        cases hs : w.send _ with
        | netErr e => simp [hs]
        | resp r =>
          by_cases h3 : r.statusCode ≠ 200
          · simp [hs, if_pos h3]
          · simp only [hs, if_neg h3]
            cases hd : decodeBody r.body with
            | error e => simp [hd]
            | ok v => simp [hd]
    · simp only [if_neg h2]
      cases w.newRequest _ with
      | some e => rfl
      | none =>
        cases hs : w.send _ with
        | netErr e => simp [hs]
        | resp r =>
          by_cases h3 : r.statusCode ≠ 200
          · simp [hs, if_pos h3]
          · simp only [hs, if_neg h3]
            cases hd : decodeBody r.body with
            | error e => simp [hd]
            | ok v => simp [hd]

/-- A log sink for concrete instantiation: unit state, successful
writes. -/
def unitSink : Sink Unit :=
  fun st _ => (st, none)

/-- A world whose endpoint always answers 200 with body
`{"value": "T"}`. -/
def successWorld : World where
  env := { requestURL := "https://token.test/get", requestToken := "tok",
           audience := "" }
  newRequest := fun _ => none
  send := fun _ =>
    .resp ⟨200, .wellFormed (.obj [("value", .str "T")])⟩

/-- A world whose endpoint answers 200 with the valid JSON body `{}`:
an object with no `value` field. -/
def emptyObjWorld : World where
  env := { requestURL := "https://token.test/get", requestToken := "tok",
           audience := "" }
  newRequest := fun _ => none
  send := fun _ => .resp ⟨200, .wellFormed (.obj [])⟩

/-- A world whose endpoint answers 200 with the valid JSON body
`"oops"`: a top-level string, which does not unmarshal into the
single-field struct. -/
def strBodyWorld : World where
  env := { requestURL := "https://token.test/get", requestToken := "tok",
           audience := "" }
  newRequest := fun _ => none
  send := fun _ => .resp ⟨200, .wellFormed (.str "oops")⟩

/-- A world with the request URL variable unset; the endpoint would
answer successfully, so reaching it would be observable. -/
def noEnvWorld : World where
  env := { requestURL := "", requestToken := "tok", audience := "" }
  newRequest := fun _ => none
  send := fun _ =>
    .resp ⟨200, .wellFormed (.obj [("value", .str "T")])⟩

/-- A world with an audience set and a query-free base URL; the
transport fails, which still records the attempted request. -/
def audienceWorld : World where
  env := { requestURL := "https://token.test/get", requestToken := "tok",
           audience := "a b" }
  newRequest := fun _ => none
  send := fun _ => .netErr "connection refused"

/-- A world with an audience set and a base URL that already carries a
query string. -/
def audienceQueryWorld : World where
  env := { requestURL := "https://token.test/get?api-version=2", requestToken := "tok",
           audience := "a b" }
  newRequest := fun _ => none
  send := fun _ => .netErr "connection refused"

/-- A world whose endpoint answers 401 with a success-shaped body,
which must not be decoded. -/
def unauthorizedWorld : World where
  env := { requestURL := "https://token.test/get", requestToken := "tok",
           audience := "" }
  newRequest := fun _ => none
  send := fun _ =>
    .resp ⟨401, .wellFormed (.obj [("value", .str "T")])⟩

/-- C1: in any environment where both `ACTIONS_ID_TOKEN_REQUEST_URL`
and `ACTIONS_ID_TOKEN_REQUEST_TOKEN` are non-empty, if the HTTP
exchange returns status 200 with body `{"value": "T"}`, then `Get`
returns the pair `("github_actions", T)` and a nil error. -/
theorem C1_success_pair {σ : Type} (sink : Sink σ) (st : σ) (w : World)
    (serverURL T : String)
    (hURL : w.env.requestURL ≠ "") (hTok : w.env.requestToken ≠ "")
    (hNew : ∀ u, w.newRequest u = none)
    (hSend : ∀ r, w.send r =
      HttpResult.resp ⟨200, Body.wellFormed (Json.obj [("value", Json.str T)])⟩) :
    (GitHubActionsOidc.Get sink st w serverURL).1.username = "github_actions" ∧
    (GitHubActionsOidc.Get sink st w serverURL).1.secret = T ∧
    (GitHubActionsOidc.Get sink st w serverURL).1.err = none := by
  rw [Get_fst]
  have h1 : ¬(w.env.requestURL = "" ∨ w.env.requestToken = "") := by
    rintro (h | h)
    · exact hURL h
    · exact hTok h
  have hdec : decodeBody (Body.wellFormed (Json.obj [("value", Json.str T)])) =
      Except.ok T := rfl
  unfold GetResult
  simp only [if_neg h1, hNew, hSend]
  simp [hdec]

/-- Witness for C1 at a concrete world. -/
theorem C1_success_pair_witness :
    (GitHubActionsOidc.Get unitSink () successWorld
      "https://registry.example.com").1.username = "github_actions" ∧
    (GitHubActionsOidc.Get unitSink () successWorld
      "https://registry.example.com").1.secret = "T" ∧
    (GitHubActionsOidc.Get unitSink () successWorld
      "https://registry.example.com").1.err = none :=
  C1_success_pair unitSink () successWorld "https://registry.example.com" "T"
    (by decide) (by decide) (fun _ => rfl) (fun _ => rfl)

/-- C3: when either required environment variable is empty or absent
(`os.Getenv` returns `""` for absent), `Get` fails with
`CredentialsNotFound` and hands no request to the HTTP client. -/
theorem C3_missing_env_no_call {σ : Type} (sink : Sink σ) (st : σ)
    (w : World) (serverURL : String)
    (h : w.env.requestURL = "" ∨ w.env.requestToken = "") :
    (GitHubActionsOidc.Get sink st w serverURL).1.err =
      some GoError.credentialsNotFound ∧
    (GitHubActionsOidc.Get sink st w serverURL).1.requestSent = none := by
  rw [Get_fst]
  unfold GetResult
  simp [if_pos h, NewErrCredentialsNotFound]

/-- Witness for C3 at a concrete world with an unset request URL. -/
theorem C3_missing_env_no_call_witness :
    (GitHubActionsOidc.Get unitSink () noEnvWorld
      "https://registry.example.com").1.err =
      some GoError.credentialsNotFound ∧
    (GitHubActionsOidc.Get unitSink () noEnvWorld
      "https://registry.example.com").1.requestSent = none :=
  C3_missing_env_no_call unitSink () noEnvWorld "https://registry.example.com"
    (Or.inl rfl)

/-- C4: whenever a request reaches the HTTP client, its URL is the base
URL with `audience=<query-escaped audience>` appended after `?` (or
after `&` when the base already contains `?`) if the audience variable
is non-empty, and the base URL unchanged otherwise. -/
theorem C4_audience_in_url {σ : Type} (sink : Sink σ) (st : σ) (w : World)
    (serverURL : String)
    (hURL : w.env.requestURL ≠ "") (hTok : w.env.requestToken ≠ "")
    (hNew : ∀ u, w.newRequest u = none) :
    ((GitHubActionsOidc.Get sink st w serverURL).1.requestSent).map
        HttpRequest.url =
      some (if w.env.audience = "" then w.env.requestURL
            else w.env.requestURL ++
              (if containsChar w.env.requestURL '?' then "&" else "?") ++
              "audience=" ++ queryEscape w.env.audience) := by
  rw [Get_fst]
  have h1 : ¬(w.env.requestURL = "" ∨ w.env.requestToken = "") := by
    rintro (h | h)
    · exact hURL h
    · exact hTok h
  unfold GetResult
  simp only [if_neg h1, hNew]
  by_cases h2 : w.env.audience = ""
  · simp only [h2, ne_eq, not_true_eq_false, if_neg, ite_false, if_pos rfl]
    cases hs : w.send _ with
    | netErr e => rfl
    | resp r =>
      by_cases h3 : r.statusCode ≠ 200
      · simp only [if_pos h3]; rfl
      · simp only [if_neg h3]
        cases hd : decodeBody r.body with
        | error e => rfl
        | ok v => rfl
  · simp only [if_neg h2, ne_eq, h2, not_false_eq_true, ite_true]
    cases hs : w.send _ with
    | netErr e => rfl
    | resp r =>
      by_cases h3 : r.statusCode ≠ 200
      · simp only [if_pos h3]; rfl
      · simp only [if_neg h3]
        cases hd : decodeBody r.body with
        | error e => rfl
        | ok v => rfl

/-- Witness for C4 at two concrete worlds: a base URL without a query
string and one that already carries `?`. -/
theorem C4_audience_in_url_witness :
    ((GitHubActionsOidc.Get unitSink () audienceWorld
        "https://registry.example.com").1.requestSent).map HttpRequest.url =
      some "https://token.test/get?audience=a+b" ∧
    ((GitHubActionsOidc.Get unitSink () audienceQueryWorld
        "https://registry.example.com").1.requestSent).map HttpRequest.url =
      some "https://token.test/get?api-version=2&audience=a+b" := by
  constructor
  · rw [C4_audience_in_url unitSink () audienceWorld "https://registry.example.com"
      (by decide) (by decide) (fun _ => rfl)]
    decide
  · rw [C4_audience_in_url unitSink () audienceQueryWorld "https://registry.example.com"
      (by decide) (by decide) (fun _ => rfl)]
    decide

/-- C5: a response with any status code other than 200 makes `Get` fail
with `CredentialsNotFound`, whatever the body holds; the body is never
consulted (the conclusion holds for every body uniformly). -/
theorem C5_non_200 {σ : Type} (sink : Sink σ) (st : σ) (w : World)
    (serverURL : String) (code : Nat) (body : Body)
    (hSend : ∀ r, w.send r = HttpResult.resp ⟨code, body⟩)
    (hCode : code ≠ 200) :
    (GitHubActionsOidc.Get sink st w serverURL).1.err =
      some GoError.credentialsNotFound ∧
    (GitHubActionsOidc.Get sink st w serverURL).1.username = "" ∧
    (GitHubActionsOidc.Get sink st w serverURL).1.secret = "" := by
  rw [Get_fst]
  unfold GetResult
  simp only [hSend]
  split
  · exact ⟨rfl, rfl, rfl⟩
  · split
    · exact ⟨rfl, rfl, rfl⟩
    · simp [hCode, NewErrCredentialsNotFound]

/-- Witness for C5 at a concrete world answering 401 with a
success-shaped body. -/
theorem C5_non_200_witness :
    (GitHubActionsOidc.Get unitSink () unauthorizedWorld
      "https://registry.example.com").1.err =
      some GoError.credentialsNotFound ∧
    (GitHubActionsOidc.Get unitSink () unauthorizedWorld
      "https://registry.example.com").1.username = "" ∧
    (GitHubActionsOidc.Get unitSink () unauthorizedWorld
      "https://registry.example.com").1.secret = "" :=
  C5_non_200 unitSink () unauthorizedWorld "https://registry.example.com"
    401 (Body.wellFormed (Json.obj [("value", Json.str "T")]))
    (fun _ => rfl) (by decide)

/-- C2, counterexample to the claim as stated: the body `{}` is valid
JSON that does not match the single-`value`-field schema (it has no
`value` field at all), yet `Get` does not return `CredentialsNotFound`:
Go's decoder leaves absent struct fields at their zero value, so `Get`
returns the success pair `("github_actions", "")` with a nil error. -/
theorem C2_counterexample :
    (GitHubActionsOidc.Get unitSink () emptyObjWorld
      "https://registry.example.com").1.err = none ∧
    (GitHubActionsOidc.Get unitSink () emptyObjWorld
      "https://registry.example.com").1.username = "github_actions" ∧
    (GitHubActionsOidc.Get unitSink () emptyObjWorld
      "https://registry.example.com").1.secret = "" :=
  ⟨rfl, rfl, rfl⟩

/-- C2 as amended: a 200 response whose valid-JSON body fails to
*decode* into the single-field struct — a top-level value that is
neither an object nor `null`, or a field matching `value` holding a
value of non-string, non-null type — makes `Get` return
`CredentialsNotFound`; bodies that decode (among them an object with no
`value` field) yield the success pair instead. -/
theorem C2_amended_decode_failure {σ : Type} (sink : Sink σ) (st : σ)
    (w : World) (serverURL : String) (j : Json) (e : String)
    (hURL : w.env.requestURL ≠ "") (hTok : w.env.requestToken ≠ "")
    (hNew : ∀ u, w.newRequest u = none)
    (hSend : ∀ r, w.send r = HttpResult.resp ⟨200, Body.wellFormed j⟩)
    (hDec : decodeValueField j = Except.error e) :
    (GitHubActionsOidc.Get sink st w serverURL).1.err =
      some GoError.credentialsNotFound ∧
    (GitHubActionsOidc.Get sink st w serverURL).1.username = "" ∧
    (GitHubActionsOidc.Get sink st w serverURL).1.secret = "" := by
  rw [Get_fst]
  have h1 : ¬(w.env.requestURL = "" ∨ w.env.requestToken = "") := by
    rintro (h | h)
    · exact hURL h
    · exact hTok h
  have hdec : decodeBody (Body.wellFormed j) = Except.error e := hDec
  unfold GetResult
  simp only [if_neg h1, hNew, hSend]
  simp [hdec, NewErrCredentialsNotFound]

/-- Witness for the amended C2 at a concrete world answering 200 with
the valid JSON body `"oops"`, a top-level string. -/
theorem C2_amended_decode_failure_witness :
    (GitHubActionsOidc.Get unitSink () strBodyWorld
      "https://registry.example.com").1.err =
      some GoError.credentialsNotFound ∧
    (GitHubActionsOidc.Get unitSink () strBodyWorld
      "https://registry.example.com").1.username = "" ∧
    (GitHubActionsOidc.Get unitSink () strBodyWorld
      "https://registry.example.com").1.secret = "" :=
  C2_amended_decode_failure unitSink () strBodyWorld
    "https://registry.example.com" (Json.str "oops")
    "json: cannot unmarshal value into Go value of type struct"
    (by decide) (by decide) (fun _ => rfl) (fun _ => rfl) rfl

/-- C6: on every run of `Get` — any environment, any HTTP behaviour,
any sink — the returned error is either nil (success) or the single
error kind `CredentialsNotFound`; no other error kind is ever
surfaced. -/
theorem C6_single_error_kind {σ : Type} (sink : Sink σ) (st : σ)
    (w : World) (serverURL : String) :
    (GitHubActionsOidc.Get sink st w serverURL).1.err = none ∨
    (GitHubActionsOidc.Get sink st w serverURL).1.err =
      some GoError.credentialsNotFound := by
  rw [Get_fst]
  rcases GetResult_cases w serverURL with ⟨h, _⟩ | ⟨h, _, _⟩
  · exact Or.inl h
  · exact Or.inr h

/-- C7: `Add` (store), `Delete` (erase) and `ListOp` (enumerate) return
a nil error on every input, and `ListOp` returns the empty credential
map; the helper holds no credential state (its only field is the log
file), so there is no state to change. -/
theorem C7_stub_operations {σ : Type} (sink : Sink σ) (st : σ)
    (creds : Credentials) (serverURL : String) :
    (GitHubActionsOidc.Add sink st creds).1 = none ∧
    (GitHubActionsOidc.Delete sink st serverURL).1 = none ∧
    (GitHubActionsOidc.ListOp sink st).1 = ([], none) :=
  ⟨rfl, rfl, rfl⟩

/-- C8: two sequential calls of `Get` — the second starting from the
log-sink state the first left behind — against the same environment and
the same deterministic endpoint return identical results. -/
theorem C8_sequential_idempotence {σ : Type} (sink : Sink σ) (st : σ)
    (w : World) (serverURL : String) :
    (GitHubActionsOidc.Get sink
        (GitHubActionsOidc.Get sink st w serverURL).2 w serverURL).1 =
      (GitHubActionsOidc.Get sink st w serverURL).1 := by
  rw [Get_fst, Get_fst]

/-- C9: for every operation, the caller-visible return value is the
same under any two log sinks in any two states — log writes, including
failing ones, never alter the primary result. -/
theorem C9_sink_irrelevance {σ₁ σ₂ : Type} (sink₁ : Sink σ₁)
    (sink₂ : Sink σ₂) (st₁ : σ₁) (st₂ : σ₂) (w : World)
    (serverURL : String) (creds : Credentials) (delURL : String) :
    (GitHubActionsOidc.Get sink₁ st₁ w serverURL).1 =
      (GitHubActionsOidc.Get sink₂ st₂ w serverURL).1 ∧
    (GitHubActionsOidc.Add sink₁ st₁ creds).1 =
      (GitHubActionsOidc.Add sink₂ st₂ creds).1 ∧
    (GitHubActionsOidc.Delete sink₁ st₁ delURL).1 =
      (GitHubActionsOidc.Delete sink₂ st₂ delURL).1 ∧
    (GitHubActionsOidc.ListOp sink₁ st₁).1 =
      (GitHubActionsOidc.ListOp sink₂ st₂).1 := by
  refine ⟨?_, rfl, rfl, rfl⟩
  rw [Get_fst, Get_fst]

/-- C10: whenever `Get` returns a non-nil error, the username and
secret it returns are both empty. -/
theorem C10_failure_empty_strings {σ : Type} (sink : Sink σ) (st : σ)
    (w : World) (serverURL : String)
    (h : (GitHubActionsOidc.Get sink st w serverURL).1.err ≠ none) :
    (GitHubActionsOidc.Get sink st w serverURL).1.username = "" ∧
    (GitHubActionsOidc.Get sink st w serverURL).1.secret = "" := by
  rw [Get_fst] at h ⊢
  rcases GetResult_cases w serverURL with ⟨hn, _⟩ | ⟨_, hu, hs⟩
  · exact absurd hn h
  · exact ⟨hu, hs⟩

/-- Witness for C10 at a concrete world with an unset request URL,
whose `Get` fails. -/
theorem C10_failure_empty_strings_witness :
    (GitHubActionsOidc.Get unitSink () noEnvWorld
      "https://registry.example.com").1.username = "" ∧
    (GitHubActionsOidc.Get unitSink () noEnvWorld
      "https://registry.example.com").1.secret = "" :=
  C10_failure_empty_strings unitSink () noEnvWorld
    "https://registry.example.com" (by decide)
